import Mathlib

/-!
Shallow embedding of the demo_rpc (geerpc) repository: server request
pipeline, client call state machine, HTTP client handshake, XClient
connection cache, registry TTL eviction, and multi-server discovery.
Each definition mirrors the corresponding Go function; time is modelled
with Nat/Int durations, I/O results with Except/Option parameters.
-/

namespace GeeRPC

/-- Wire header (codec.Header): ServiceMethod, Seq, Error. -/
structure Header where
  serviceMethod : String
  seq : Nat
  error : String
deriving DecidableEq, Repr

/-- Body payload of a server response, as passed to sendResponse.
`replyValue` is the raw reflect.Value `req.Reply`; `replyInterface`
is `req.Reply.Interface()`; `nilBody` is an explicit nil. -/
inductive Body where
  | nilBody
  | replyValue
  | replyInterface
deriving DecidableEq, Repr

/-- The server's handle-timeout error string
(fmt.Sprintf "rpc server: request handle timeout: expect within %s"). -/
def handleTimeoutMsg (d : Nat) : String :=
  "rpc server: request handle timeout: expect within " ++ toString d

/-- What the inner handler goroutine sends after the service method
returns: on a method error, the header with Error set and a nil body;
otherwise the unchanged header with req.Reply.Interface(). -/
def innerSend (h : Header) (methodErr : Option String) : Header × Body :=
  match methodErr with
  | some e => ({ h with error := e }, Body.nilBody)
  | none => (h, Body.replyInterface)

/-- Server.handleRequest: the sequence of responses written for one
request. `timeout` is opt.HandleTimeout (0 = unlimited), `methodTime`
the running time of the service method, `methodErr` its returned error.
When `timeout = 0` the handler awaits the inner goroutine's send and
returns. When `timeout ≠ 0` it races time.After(timeout) against method
completion (the timer wins iff `methodTime > timeout`): on timeout it
sends the header with the timeout error and body req.Reply, and the
inner goroutine blocks forever on the unbuffered `called` channel (its
send never happens); on completion the inner goroutine's send has gone
out. In both raced branches control then falls through to the trailing
unconditional `sendResponse(cc, req.H, req.Reply.Interface(), sending)`. -/
def handleRequest (timeout methodTime : Nat) (methodErr : Option String)
    (h : Header) : List (Header × Body) :=
  if timeout = 0 then
    [innerSend h methodErr]
  else if methodTime > timeout then
    let h2 := { h with error := handleTimeoutMsg timeout }
    [(h2, Body.replyValue), (h2, Body.replyInterface)]
  else
    let r := innerSend h methodErr
    [r, (r.1, Body.replyInterface)]

/-- Index split of a char list at its last '.', mirroring
strings.LastIndex(serviceMethod, "."): the part before the last dot
and the part after it, or none when there is no dot. -/
def lastDotSplit : List Char → Option (List Char × List Char)
  | [] => none
  | c :: rest =>
    match lastDotSplit rest with
    | some (l, r) => some (c :: l, r)
    | none => if c = '.' then some ([], rest) else none

/-- Server.findService: resolve "Service.Method" against the service
map (here: service name ↦ list of method names). Errors mirror the
source strings exactly. -/
def findService (services : List (String × List String)) (sm : String) :
    Except String Unit :=
  match lastDotSplit sm.data with
  | none => Except.error "rpc: invalid service method"
  | some (sn, mn) =>
    let serviceName := String.mk sn
    let methodName := String.mk mn
    match services.lookup serviceName with
    | none => Except.error ("rpc: service not found: " ++ serviceName)
    | some methods =>
      if methods.contains methodName then Except.ok ()
      else Except.error ("rpc: method not found: " ++ serviceName ++ "." ++ methodName)

/-- One iteration's worth of input to Server.readRequest: either the
header read fails, or a header arrives together with the outcome of the
body read and (for dispatch) the method's behaviour. -/
inductive ReadEvent where
  | headerErr
  | req (h : Header) (bodyOk : Bool) (methodTime : Nat) (methodErr : Option String)
deriving DecidableEq, Repr

/-- A fully-read request as assembled by readRequest. -/
structure Request where
  h : Header
  methodTime : Nat
  methodErr : Option String
deriving DecidableEq, Repr

/-- Server.readRequest: read a header (failure → (none, err)); resolve
the service method (failure → the partially-built request plus the
resolution error); read the body (failure → the request plus a body
error). On success the request with no error. -/
def readRequest (services : List (String × List String)) :
    ReadEvent → Option Request × Option String
  | ReadEvent.headerErr => (none, some "header read error")
  | ReadEvent.req h bodyOk t me =>
    match findService services h.serviceMethod with
    | Except.error e => (some ⟨h, t, me⟩, some e)
    | Except.ok _ =>
      if bodyOk then (some ⟨h, t, me⟩, none)
      else (some ⟨h, t, me⟩, some "body read error")

/-- Server.serveCodec: loop readRequest; on any readRequest error,
break out of the loop at once (no response is written for the failed
request and no later request is served); otherwise handle the request
and continue. The responses of the successive handlers are listed in
request order. -/
def serveCodec (services : List (String × List String)) (timeout : Nat) :
    List ReadEvent → List (Header × Body)
  | [] => []
  | ev :: rest =>
    match readRequest services ev with
    | (_, some _) => []
    | (some req, none) =>
      handleRequest timeout req.methodTime req.methodErr req.h
        ++ serveCodec services timeout rest
    | (none, none) => []

/-- Client state (cilcnt.go): monotonically assigned seq counter, the
pending map (here the list of registered seqs), and the closing /
shutdown flags. Calls are identified by their Seq. -/
structure ClientState where
  seq : Nat
  pending : List Nat
  closing : Bool
  shutdown : Bool
deriving DecidableEq, Repr

/-- The client state NewClient starts from: seq 0, no pending calls. -/
def initClient : ClientState := ⟨0, [], false, false⟩

/-- Client.registerCall: assign the current seq to the call, insert it
into pending, and bump the counter. Never fails. -/
def registerCall (st : ClientState) : Nat × ClientState :=
  (st.seq, { st with seq := st.seq + 1, pending := st.seq :: st.pending })

/-- Client.removeCall: whether the seq was pending, and the state with
that entry deleted. -/
def removeCall (st : ClientState) (seq : Nat) : Bool × ClientState :=
  (st.pending.contains seq,
   { st with pending := st.pending.filter (fun x => x != seq) })

/-- Client.terminateCalls: set shutdown and signal every pending call's
Done with the error. The pending map is not cleared by the source. -/
def terminateCalls (st : ClientState) (err : String) :
    ClientState × List (Nat × Option String) :=
  ({ st with shutdown := true }, st.pending.map (fun s => (s, some err)))

/-- Where receive's ReadBody call points for one response. -/
inductive BodyRead where
  | discard
  | intoReply (seq : Nat)
deriving DecidableEq, Repr

/-- The client-side body-decode error string ("reading body " + err). -/
def readingBodyErr (e : String) : String := "reading body " ++ e

/-- One iteration of Client.receive after a successful header read:
remove the call for header.Seq; if absent, drain the body; if the
header carries an error, record it on the call, drain the body and
signal Done; otherwise decode the body into the call's Reply (recording
a reading-body error if that fails) and signal Done. The middle output
lists the Done signals as (seq, call.Error at signal time). -/
def receiveStep (st : ClientState) (h : Header) (bodyRes : Except String Unit) :
    ClientState × List (Nat × Option String) × BodyRead :=
  let r := removeCall st h.seq
  if r.1 then
    if h.error ≠ "" then
      (r.2, [(h.seq, some h.error)], BodyRead.discard)
    else
      match bodyRes with
      | Except.ok _ => (r.2, [(h.seq, none)], BodyRead.intoReply h.seq)
      | Except.error e => (r.2, [(h.seq, some (readingBodyErr e))], BodyRead.intoReply h.seq)
  else
    (r.2, [], BodyRead.discard)

/-- Client.send: register the call under a fresh seq, then write the
header and args; when the write fails, remove the call again and (when
it was still pending) complete it with the write error. -/
def send (st : ClientState) (writeErr : Option String) :
    ClientState × List (Nat × Option String) :=
  let r := registerCall st
  match writeErr with
  | none => (r.2, [])
  | some e =>
    let r2 := removeCall r.2 r.1
    if r2.1 then (r2.2, [(r.1, some e)]) else (r2.2, [])

/-- The ctx.Done branch of Client.Call: remove the call for its seq and
return "rpc client: call failed: " plus the context error. No Done
signal is delivered on this path. -/
def callCancel (st : ClientState) (seq : Nat) (ctxErr : String) :
    ClientState × String :=
  ((removeCall st seq).2, "rpc client: call failed: " ++ ctxErr)

/-- The atomic client transitions, interleaved into a trace: a Go/send
(with the codec write's outcome), a received response header (with the
body decode's outcome), a header-read failure, and a context
cancellation of a synchronous Call. -/
inductive CEvent where
  | go (writeErr : Option String)
  | recv (h : Header) (bodyRes : Except String Unit)
  | recvFail (err : String)
  | cancel (seq : Nat) (ctxErr : String)
deriving Repr

/-- One client transition: Done signals are listed as
(seq, error recorded on the call). The receive-loop events are no-ops
once shutdown is set, because receive has returned by then. -/
def step (st : ClientState) : CEvent → ClientState × List (Nat × Option String)
  | CEvent.go we => send st we
  | CEvent.recv h br =>
    if st.shutdown then (st, [])
    else
      let r := receiveStep st h br
      (r.1, r.2.1)
  | CEvent.recvFail e =>
    if st.shutdown then (st, []) else terminateCalls st e
  | CEvent.cancel seq ce => ((callCancel st seq ce).1, [])

/-- Run a trace of client transitions, accumulating the Done signals. -/
def run (st : ClientState) : List CEvent → ClientState × List (Nat × Option String)
  | [] => (st, [])
  | e :: es =>
    let r1 := step st e
    let r2 := run r1.1 es
    (r2.1, r1.2 ++ r2.2)

/-- How many Done signals the call with sequence number `n` receives
over a trace started from a fresh client. -/
def doneCount (tr : List CEvent) (n : Nat) : Nat :=
  ((run initClient tr).2.map Prod.fst).count n

/-- A client as seen by XClient's cache: an identity plus the two
status flags of the Client structure. -/
structure GoClient where
  id : Nat
  closing : Bool
  shutdown : Bool
deriving DecidableEq, Repr

/-- Modelled from the spec: Client.IsAvailable is called by
src/xclient/xclient.go but its definition is not under src/. The spec
says "IsAvailable(): true iff neither closing nor shutdown". -/
def GoClient.isAvailable (c : GoClient) : Bool := !c.closing && !c.shutdown

/-- Lookup in XClient's clients map (addr → Client). -/
def cacheGet (cache : List (String × GoClient)) (addr : String) : Option GoClient :=
  match cache with
  | [] => none
  | (a, c) :: rest => if a = addr then some c else cacheGet rest addr

/-- Store into XClient's clients map, overwriting an existing entry. -/
def cachePut (cache : List (String × GoClient)) (addr : String) (c : GoClient) :
    List (String × GoClient) :=
  match cache with
  | [] => [(addr, c)]
  | (a, c0) :: rest =>
    if a = addr then (a, c) :: rest else (a, c0) :: cachePut rest addr c

/-- Outcome of XClient.dial: the returned client or error, the cache
afterwards, and the clients that were Closed along the way. -/
structure DialOutcome where
  result : Except String GoClient
  cache : List (String × GoClient)
  closed : List GoClient
deriving Repr

/-- XClient.dial: look up the cached client; when one is present AND
IsAvailable() reports true, Close it and set the local variable to nil;
then, when the local variable is nil (no cache hit, or the available
one was just closed), call XDial (outcome supplied as `fresh`) and on
success store the new client; otherwise return the client left in the
local variable — which is the cached one exactly when it was present
and NOT available. -/
def xclientDial (cache : List (String × GoClient)) (addr : String)
    (fresh : Except String GoClient) : DialOutcome :=
  match cacheGet cache addr with
  | some c =>
    if c.isAvailable then
      match fresh with
      | Except.error e => ⟨Except.error e, cache, [c]⟩
      | Except.ok c2 => ⟨Except.ok c2, cachePut cache addr c2, [c]⟩
    else ⟨Except.ok c, cache, []⟩
  | none =>
    match fresh with
    | Except.error e => ⟨Except.error e, cache, []⟩
    | Except.ok c2 => ⟨Except.ok c2, cachePut cache addr c2, []⟩

/-- The expected HTTP handshake status line. -/
def connected : String := "200 connected to Gee RPC"

/-- What NewHTTPClient does after http.ReadResponse returns. -/
inductive HTTPClientResult where
  | newClient
  | nilNil
  | err (e : String)
  | nilDeref
deriving DecidableEq, Repr

/-- NewHTTPClient after the CONNECT write: on a successfully read
response whose status equals `connected`, proceed to NewClient; on a
successfully read response with any other status, fall through both
guards and return (nil, nil); on a read error, enter the
`err != nil` branch, which dereferences the nil *http.Response to
build "unexpected HTTP response: " + resp.Status. -/
def newHTTPClient (readResult : Except String String) : HTTPClientResult :=
  match readResult with
  | Except.ok status =>
    if status = connected then HTTPClientResult.newClient
    else HTTPClientResult.nilNil
  | Except.error _ => HTTPClientResult.nilDeref

/-- registry.ServerItem: address and the time of the last heartbeat. -/
structure ServerItem where
  addr : String
  start : Int
deriving DecidableEq, Repr

/-- registry.GeeRegistry: TTL and the server map (as an entry list). -/
structure GeeRegistry where
  timeout : Int
  servers : List ServerItem
deriving DecidableEq, Repr

/-- registry.NewGeeRegistry. -/
def NewGeeRegistry (timeout : Int) : GeeRegistry := ⟨timeout, []⟩

/-- registry.putServer at time `now`: refresh the entry's start when
the address is present, insert it otherwise. -/
def putServer (r : GeeRegistry) (addr : String) (now : Int) : GeeRegistry :=
  if r.servers.any (fun s => s.addr = addr) then
    { r with servers :=
        r.servers.map (fun s => if s.addr = addr then { s with start := now } else s) }
  else
    { r with servers := r.servers ++ [⟨addr, now⟩] }

/-- registry.aliveServers at time `now`: delete every entry with
now - start ≥ timeout from the map, and return the addresses of the
surviving entries. -/
def aliveServers (r : GeeRegistry) (now : Int) : GeeRegistry × List String :=
  let kept := r.servers.filter (fun s => now - s.start < r.timeout)
  ({ r with servers := kept }, kept.map ServerItem.addr)

/-- An HTTP request to the registry endpoint. -/
inductive RVerb where
  | get
  | post (serverHeader : String)
  | other
deriving DecidableEq, Repr

/-- What the registry's handler wrote: the X-Geerpc-Servers response
header if set, and the status code if WriteHeader was called. -/
structure RResponse where
  serversHeader : Option String
  status : Option Nat
deriving DecidableEq, Repr

/-- registry.ServeHTTP at time `now`: GET sets X-Geerpc-Servers to the
comma-joined alive list (evicting stale entries first); POST with an
empty X-Geerpc-Server header answers 500, otherwise upserts the
address; any other verb answers 405. -/
def registryServeHTTP (r : GeeRegistry) (now : Int) :
    RVerb → GeeRegistry × RResponse
  | RVerb.get =>
    let a := aliveServers r now
    (a.1, ⟨some (String.intercalate "," a.2), none⟩)
  | RVerb.post addr =>
    if addr = "" then (r, ⟨none, some 500⟩)
    else (putServer r addr now, ⟨none, none⟩)
  | RVerb.other => (r, ⟨none, some 405⟩)

/-- The client-side connect-timeout error string. -/
def connectTimeoutMsg (d : Nat) : String :=
  "rpc client: connect timeout: expect within " ++ toString d

/-- dialTimeout: `dialResult` is net.DialTimeout's outcome; on failure
it is returned at once and no connection exists. Otherwise the inner
goroutine runs the handshake, finishing at `handshakeTime` with
`handshakeResult` (a client id or an error). With ConnectTimeout zero
the result is awaited unconditionally; with a non-zero ConnectTimeout
the timer wins the select iff the handshake takes longer, yielding the
connect-timeout error. The deferred close fires exactly when the
returned error is non-nil, so the Bool records whether the opened
connection was closed. -/
def dialTimeout (connectTimeout : Nat) (dialResult : Except String Unit)
    (handshakeTime : Nat) (handshakeResult : Except String Nat) :
    Except String Nat × Bool :=
  match dialResult with
  | Except.error e => (Except.error e, false)
  | Except.ok _ =>
    if connectTimeout = 0 then
      (handshakeResult, !handshakeResult.toBool)
    else if connectTimeout < handshakeTime then
      (Except.error (connectTimeoutMsg connectTimeout), true)
    else
      (handshakeResult, !handshakeResult.toBool)

/-- xclient SelectMode constants (iota): RandomSelect = 0. -/
def RandomSelect : Nat := 0

/-- xclient SelectMode constants (iota): RoundRobinSelect = 1. -/
def RoundRobinSelect : Nat := 1

/-- Outcome of MultiServersDiscovery.Get: a selected address together
with the stored round-robin index afterwards, an error, or a runtime
panic (rand.Intn(0) / modulo by zero on an empty server list). -/
inductive GetOutcome where
  | ok (addr : String) (newIndex : Nat)
  | err (msg : String)
  | panics
deriving DecidableEq, Repr

/-- MultiServersDiscovery.Get with server list `servers`, stored index
`index` and random draw `r`: RandomSelect indexes by r mod the length
(rand.Intn panics when the list is empty) and leaves the index alone;
RoundRobinSelect advances the index to (index+1) mod the length (the
modulo panics when the list is empty), stores it, and returns that
element; any other mode returns the error "invalid server". -/
def discoveryGet (servers : List String) (index r mode : Nat) : GetOutcome :=
  if mode = RandomSelect then
    if servers.length = 0 then GetOutcome.panics
    else GetOutcome.ok (servers.getD (r % servers.length) "") index
  else if mode = RoundRobinSelect then
    if servers.length = 0 then GetOutcome.panics
    else
      GetOutcome.ok (servers.getD ((index + 1) % servers.length) "")
        ((index + 1) % servers.length)
  else GetOutcome.err "invalid server"

/-- Number of pending entries for seq `n` (at most 1 in reachable states). -/
def pendingCount (st : ClientState) (n : Nat) : Nat := st.pending.count n

/-- Invariant tying the done-signal count `d` already delivered for the
call with seq `n` to the client state: while the receive loop is alive,
delivered signals plus pending registrations is at most one; a seq not
yet assigned has neither signals nor registrations. -/
def clientInv (n : Nat) (st : ClientState) (d : Nat) : Prop :=
  d + (if st.shutdown then 0 else pendingCount st n) ≤ 1
  ∧ pendingCount st n ≤ 1
  ∧ (st.seq ≤ n → d = 0 ∧ pendingCount st n = 0)

lemma count_filter_ne_self (l : List Nat) (m : Nat) :
    (l.filter (fun x => x != m)).count m = 0 := by
  induction l with
  | nil => rfl
  | cons a t ih =>
    by_cases h : a = m
    · subst h; simpa [List.filter_cons] using ih
    · simp [List.filter_cons, h, List.count_cons, ih, Ne.symm h]

lemma count_filter_ne_other (l : List Nat) (m n : Nat) (h : n ≠ m) :
    (l.filter (fun x => x != m)).count n = l.count n := by
  induction l with
  | nil => rfl
  | cons a t ih =>
    by_cases ha : a = m
    · subst ha; simp [List.filter_cons, List.count_cons, ih, h]
    · simp [List.filter_cons, ha, List.count_cons, ih]

lemma not_mem_filter_ne_self (l : List Nat) (m : Nat) :
    m ∉ l.filter (fun x => x != m) := by
  intro hmem
  have := List.count_pos_iff.mpr hmem
  rw [count_filter_ne_self] at this
  exact Nat.lt_irrefl 0 this

lemma map_fst_pair (l : List Nat) (e : String) :
    (l.map (fun s => (s, some e))).map Prod.fst = l := by
  induction l with
  | nil => rfl
  | cons a t ih => simp [ih]

lemma receiveStep_state (st : ClientState) (hh : Header) (br : Except String Unit) :
    (receiveStep st hh br).1 = (removeCall st hh.seq).2 := by
  cases br <;> unfold receiveStep <;> dsimp only <;> split_ifs <;> rfl

lemma receiveStep_signals (st : ClientState) (hh : Header) (br : Except String Unit) :
    ((receiveStep st hh br).2.1).map Prod.fst =
      if st.pending.contains hh.seq then [hh.seq] else [] := by
  cases br <;> unfold receiveStep <;> dsimp only <;> split_ifs <;> simp_all [removeCall]

lemma inv_send (n : Nat) (st : ClientState) (d : Nat) (we : Option String)
    (h : clientInv n st d) :
    clientInv n (send st we).1 (d + (((send st we).2.map Prod.fst).count n)) := by
  obtain ⟨h1, h2, h3⟩ := h
  simp only [pendingCount] at h1 h2 h3
  cases we with
  | none =>
    have hsend : send st none =
        ({ seq := st.seq + 1, pending := st.seq :: st.pending,
           closing := st.closing, shutdown := st.shutdown }, []) := rfl
    rw [hsend]
    by_cases hn : n = st.seq
    · subst hn
      obtain ⟨hd0, hp0⟩ := h3 (le_refl _)
      subst hd0
      refine ⟨?_, ?_, ?_⟩
      · simp only [clientInv, pendingCount, List.count_cons_self, hp0]
        cases hsd : st.shutdown <;> simp
      · simp [pendingCount, List.count_cons_self, hp0]
      · intro hle; simp at hle
    · refine ⟨?_, ?_, ?_⟩
      · simpa [pendingCount, List.count_cons_of_ne hn] using h1
      · simpa [pendingCount, List.count_cons_of_ne hn] using h2
      · intro hle
        simp only at hle
        have h3' := h3 (by omega)
        simpa [pendingCount, List.count_cons_of_ne hn] using h3'
  | some e0 =>
    have hcont : ((st.seq :: st.pending).contains st.seq) = true :=
      List.elem_iff.mpr (List.mem_cons_self _ _)
    have hsend : send st (some e0) =
        ({ seq := st.seq + 1,
           pending := (st.seq :: st.pending).filter (fun x => x != st.seq),
           closing := st.closing, shutdown := st.shutdown },
         [(st.seq, some e0)]) := by
      simp [send, registerCall, removeCall, hcont]
    rw [hsend]
    by_cases hn : n = st.seq
    · subst hn
      obtain ⟨hd0, hp0⟩ := h3 (le_refl _)
      subst hd0
      refine ⟨?_, ?_, ?_⟩
      · simp [pendingCount, count_filter_ne_self]
      · simp [pendingCount, count_filter_ne_self]
      · intro hle; simp at hle
    · have hcnt := count_filter_ne_other st.pending st.seq n hn
      refine ⟨?_, ?_, ?_⟩
      · simpa [pendingCount, hcnt, hn] using h1
      · simpa [pendingCount, hcnt] using h2
      · intro hle
        simp only at hle
        have h3' := h3 (by omega)
        simp [pendingCount, hcnt, hn, h3'.1, h3'.2]

lemma inv_recv (n : Nat) (st : ClientState) (d : Nat) (hh : Header)
    (br : Except String Unit) (hsd : st.shutdown = false)
    (h : clientInv n st d) :
    clientInv n (receiveStep st hh br).1
      (d + ((((receiveStep st hh br).2.1).map Prod.fst).count n)) := by
  obtain ⟨h1, h2, h3⟩ := h
  simp only [pendingCount, hsd, Bool.false_eq_true, if_false] at h1 h2 h3
  rw [receiveStep_state, receiveStep_signals]
  by_cases hmem : hh.seq ∈ st.pending
  · have hcont : st.pending.contains hh.seq = true := List.elem_iff.mpr hmem
    rw [hcont]
    by_cases hn : n = hh.seq
    · subst hn
      have hpos : 0 < st.pending.count hh.seq := List.count_pos_iff.mpr hmem
      have hd0 : d = 0 := by omega
      subst hd0
      refine ⟨?_, ?_, ?_⟩
      · simp [removeCall, pendingCount, count_filter_ne_self, hsd]
      · simp [removeCall, pendingCount, count_filter_ne_self]
      · intro hle
        simp only [removeCall] at hle
        exact absurd ((h3 hle).2) (by omega)
    · have hcnt := count_filter_ne_other st.pending hh.seq n hn
      refine ⟨?_, ?_, ?_⟩
      · simpa [removeCall, pendingCount, hcnt, hsd, hn] using h1
      · simpa [removeCall, pendingCount, hcnt] using h2
      · intro hle
        simp only [removeCall] at hle
        have h3' := h3 hle
        simp [removeCall, pendingCount, hcnt, hn, h3'.1, h3'.2]
  · have hcont : st.pending.contains hh.seq = false := by
      rw [← Bool.not_eq_true]
      exact fun hc => hmem (List.elem_iff.mp hc)
    rw [hcont]
    by_cases hn : n = hh.seq
    · subst hn
      have hcnt0 : st.pending.count hh.seq = 0 := List.count_eq_zero.mpr hmem
      refine ⟨?_, ?_, ?_⟩
      · simp [removeCall, pendingCount, count_filter_ne_self, hsd]
        omega
      · simp [removeCall, pendingCount, count_filter_ne_self]
      · intro hle
        simp only [removeCall] at hle
        have h3' := h3 hle
        simp [removeCall, pendingCount, count_filter_ne_self, h3'.1]
    · have hcnt := count_filter_ne_other st.pending hh.seq n hn
      refine ⟨?_, ?_, ?_⟩
      · simpa [removeCall, pendingCount, hcnt, hsd] using h1
      · simpa [removeCall, pendingCount, hcnt] using h2
      · intro hle
        simp only [removeCall] at hle
        have h3' := h3 hle
        simp [removeCall, pendingCount, hcnt, h3'.1, h3'.2]

lemma inv_recvFail (n : Nat) (st : ClientState) (d : Nat) (er : String)
    (hsd : st.shutdown = false) (h : clientInv n st d) :
    clientInv n (terminateCalls st er).1
      (d + ((((terminateCalls st er).2).map Prod.fst).count n)) := by
  obtain ⟨h1, h2, h3⟩ := h
  simp only [pendingCount, hsd, Bool.false_eq_true, if_false] at h1 h2 h3
  rw [show (((terminateCalls st er).2).map Prod.fst) = st.pending from map_fst_pair _ _]
  refine ⟨?_, ?_, ?_⟩
  · simp [terminateCalls, pendingCount]
    omega
  · simpa [terminateCalls, pendingCount] using h2
  · intro hle
    simp only [terminateCalls] at hle
    have h3' := h3 hle
    simp [terminateCalls, pendingCount, h3'.1, h3'.2]

lemma inv_cancel (n : Nat) (st : ClientState) (d : Nat) (m : Nat) (ce : String)
    (h : clientInv n st d) :
    clientInv n (callCancel st m ce).1 d := by
  obtain ⟨h1, h2, h3⟩ := h
  simp only [pendingCount] at h1 h2 h3
  have hd1 : d ≤ 1 := le_trans (Nat.le_add_right d _) h1
  by_cases hn : n = m
  · subst hn
    refine ⟨?_, ?_, ?_⟩
    · simpa [callCancel, removeCall, pendingCount, count_filter_ne_self] using hd1
    · simp [callCancel, removeCall, pendingCount, count_filter_ne_self]
    · intro hle
      simp only [callCancel, removeCall] at hle
      have h3' := h3 hle
      simp [callCancel, removeCall, pendingCount, count_filter_ne_self, h3'.1]
  · have hcnt := count_filter_ne_other st.pending m n hn
    refine ⟨?_, ?_, ?_⟩
    · simpa [callCancel, removeCall, pendingCount, hcnt] using h1
    · simpa [callCancel, removeCall, pendingCount, hcnt] using h2
    · intro hle
      simp only [callCancel, removeCall] at hle
      have h3' := h3 hle
      simp [callCancel, removeCall, pendingCount, hcnt, h3'.1, h3'.2]

lemma step_preserves_inv (n : Nat) (st : ClientState) (d : Nat) (e : CEvent)
    (h : clientInv n st d) :
    clientInv n (step st e).1 (d + (((step st e).2.map Prod.fst).count n)) := by
  cases e with
  | go we => exact inv_send n st d we h
  | recv hh br =>
    by_cases hsd : st.shutdown
    · simpa [step, hsd] using h
    · have hsd' : st.shutdown = false := by simpa using hsd
      simpa [step, hsd'] using inv_recv n st d hh br hsd' h
  | recvFail er =>
    by_cases hsd : st.shutdown
    · simpa [step, hsd] using h
    · have hsd' : st.shutdown = false := by simpa using hsd
      simpa [step, hsd'] using inv_recvFail n st d er hsd' h
  | cancel m ce =>
    simpa [step] using inv_cancel n st d m ce h

lemma run_done_le (n : Nat) (tr : List CEvent) :
    ∀ (st : ClientState) (d : Nat), clientInv n st d →
      d + (((run st tr).2.map Prod.fst).count n) ≤ 1 := by
  induction tr with
  | nil =>
    intro st d h
    have hle : d ≤ d + (if st.shutdown then 0 else pendingCount st n) :=
      Nat.le_add_right _ _
    simpa [run] using le_trans hle h.1
  | cons e es ih =>
    intro st d h
    have hstep := step_preserves_inv n st d e h
    have hrec := ih (step st e).1 (d + (((step st e).2.map Prod.fst).count n)) hstep
    simpa [run, List.map_append, List.count_append, Nat.add_assoc] using hrec

/-- C1: the claim says that with a non-zero HandleTimeout the server
sends exactly one response per request, a timeout response carrying a
nil reply, with any late send suppressed. The code instead calls
sendResponse unconditionally after the timeout race: with HandleTimeout
1 and a method running for 5 units, handleRequest writes TWO responses,
the first carrying the timeout error with body req.Reply (not nil);
even when the method finishes within the timeout two responses go out,
while a zero timeout sends exactly one. -/
theorem handleRequest_double_send :
    handleRequest 1 5 none ⟨"Bar.Timeout", 0, ""⟩ =
      [(⟨"Bar.Timeout", 0, handleTimeoutMsg 1⟩, Body.replyValue),
       (⟨"Bar.Timeout", 0, handleTimeoutMsg 1⟩, Body.replyInterface)]
    ∧ (handleRequest 1 0 none ⟨"Bar.Timeout", 0, ""⟩).length = 2
    ∧ (handleRequest 0 5 none ⟨"Bar.Timeout", 0, ""⟩).length = 1 := by
  refine ⟨rfl, rfl, rfl⟩

/-- C2: the claim says a body-read or ServiceMethod-resolution failure
is answered on the connection with the echoed header and the error
string, and the serve loop continues. In the code serveCodec breaks out
of its loop on any readRequest error: a request for the unregistered
service "Bar" produces no response at all and the following well-formed
request for Foo.Sum is never served (first conjunct), although that
same request alone would be served (second conjunct); a body-read
failure behaves the same way (third conjunct); the resolution error
itself is the one the claim expects (fourth conjunct). -/
theorem serveCodec_stops_on_percall_error :
    serveCodec [("Foo", ["Sum"])] 0
      [ReadEvent.req ⟨"Bar.Baz", 0, ""⟩ true 0 none,
       ReadEvent.req ⟨"Foo.Sum", 1, ""⟩ true 0 none] = []
    ∧ serveCodec [("Foo", ["Sum"])] 0 [ReadEvent.req ⟨"Foo.Sum", 1, ""⟩ true 0 none]
        = [(⟨"Foo.Sum", 1, ""⟩, Body.replyInterface)]
    ∧ serveCodec [("Foo", ["Sum"])] 0 [ReadEvent.req ⟨"Foo.Sum", 2, ""⟩ false 0 none]
        = []
    ∧ findService [("Foo", ["Sum"])] "Bar.Baz"
        = Except.error "rpc: service not found: Bar" := by
  refine ⟨rfl, rfl, rfl, rfl⟩

/-- C3 (amended): across every interleaving of send, receive,
header-read failure and context cancellation, a call's Done channel is
signalled at most once; the context-cancellation path itself delivers
no signal at all. -/
theorem client_done_at_most_once :
    (∀ (tr : List CEvent) (n : Nat), doneCount tr n ≤ 1)
    ∧ (∀ (st : ClientState) (m : Nat) (ce : String),
        (step st (CEvent.cancel m ce)).2 = []) := by
  constructor
  · intro tr n
    have h0 : clientInv n initClient 0 := by
      refine ⟨?_, ?_, ?_⟩ <;> simp [initClient, pendingCount]
    simpa [doneCount] using run_done_le n tr initClient 0 h0
  · intro st m ce
    rfl

/-- C3 counterexample: a call is created by Go (seq 0 is assigned and
registered) and its synchronous wrapper is then cancelled; the call has
left the pending map, yet its Done channel received zero completion
signals — not exactly one as the claim states. -/
theorem cancelled_call_gets_no_done_signal :
    (run initClient [CEvent.go none,
        CEvent.cancel 0 "context deadline exceeded"]).1.seq = 1
    ∧ (run initClient [CEvent.go none,
        CEvent.cancel 0 "context deadline exceeded"]).1.pending = []
    ∧ doneCount [CEvent.go none, CEvent.cancel 0 "context deadline exceeded"] 0 = 0 := by
  refine ⟨rfl, rfl, rfl⟩

/-- C4: the claim (and the spec's stated intent) is that dial returns a
cached available client and replaces a stale one. The code's condition
is inverted: with an available client (id 1) cached under "tcp@x", dial
Closes it and returns the freshly dialed client (id 2); with an
unavailable (closing) client (id 3) cached, dial returns that stale
client unchanged and never redials. -/
theorem xclientDial_availability_inverted :
    (xclientDial [("tcp@x", ⟨1, false, false⟩)] "tcp@x"
        (Except.ok ⟨2, false, false⟩)).result = Except.ok ⟨2, false, false⟩
    ∧ (xclientDial [("tcp@x", ⟨1, false, false⟩)] "tcp@x"
        (Except.ok ⟨2, false, false⟩)).closed = [⟨1, false, false⟩]
    ∧ (xclientDial [("tcp@x", ⟨3, true, false⟩)] "tcp@x"
        (Except.ok ⟨2, false, false⟩)).result = Except.ok ⟨3, true, false⟩
    ∧ (xclientDial [("tcp@x", ⟨3, true, false⟩)] "tcp@x"
        (Except.ok ⟨2, false, false⟩)).closed = [] := by
  refine ⟨rfl, rfl, rfl, rfl⟩

/-- C5: the claim says a successfully read HTTP response whose status
differs from "200 connected to Gee RPC" yields the error "unexpected
HTTP response: <status>" and no client. The code guards the error
construction with err != nil instead of err == nil, so the mismatching
status "404 Not Found" falls through both branches and NewHTTPClient
returns (nil, nil) — no client and no error; only the exact match
proceeds to NewClient, and a failed read dereferences the nil
response. -/
theorem newHTTPClient_wrong_status_no_error :
    newHTTPClient (Except.ok "404 Not Found") = HTTPClientResult.nilNil
    ∧ HTTPClientResult.nilNil ≠
        HTTPClientResult.err "unexpected HTTP response: 404 Not Found"
    ∧ newHTTPClient (Except.ok connected) = HTTPClientResult.newClient
    ∧ newHTTPClient (Except.error "EOF") = HTTPClientResult.nilDeref := by
  refine ⟨rfl, by decide, rfl, rfl⟩

/-- C6: cancelling a synchronous Call whose seq is still pending
removes the call from the pending map and returns the error
"rpc client: call failed: <ctx error>"; a response that later arrives
for that seq finds no pending entry, delivers no Done signal, and its
body is read into nil (discarded). -/
theorem cancel_removes_pending_and_drains (st : ClientState) (m : Nat)
    (ce sm er : String) (br : Except String Unit)
    (hpend : m ∈ st.pending) :
    (callCancel st m ce).2 = "rpc client: call failed: " ++ ce
    ∧ m ∉ ((callCancel st m ce).1).pending
    ∧ (receiveStep (callCancel st m ce).1 ⟨sm, m, er⟩ br).2.1 = []
    ∧ (receiveStep (callCancel st m ce).1 ⟨sm, m, er⟩ br).2.2 = BodyRead.discard := by
  have hnm : m ∉ ((callCancel st m ce).1).pending := by
    simp only [callCancel, removeCall]
    exact not_mem_filter_ne_self st.pending m
  have hcont : ((callCancel st m ce).1).pending.contains m = false := by
    rw [← Bool.not_eq_true]
    exact fun hc => hnm (List.elem_iff.mp hc)
  refine ⟨rfl, hnm, ?_, ?_⟩
  · cases br <;> unfold receiveStep <;> simp [removeCall, hcont, hnm]
  · cases br <;> unfold receiveStep <;> simp [removeCall, hcont, hnm]

/-- C6 witness: a client with call 0 pending, cancelled with
"context canceled", then a response for seq 0 arrives. -/
theorem cancel_removes_pending_and_drains_witness :
    0 ∈ (ClientState.mk 1 [0] false false).pending
    ∧ (callCancel ⟨1, [0], false, false⟩ 0 "context canceled").2
        = "rpc client: call failed: context canceled"
    ∧ 0 ∉ ((callCancel ⟨1, [0], false, false⟩ 0 "context canceled").1).pending
    ∧ (receiveStep (callCancel ⟨1, [0], false, false⟩ 0 "context canceled").1
        ⟨"Foo.Sum", 0, ""⟩ (Except.ok ())).2.1 = []
    ∧ (receiveStep (callCancel ⟨1, [0], false, false⟩ 0 "context canceled").1
        ⟨"Foo.Sum", 0, ""⟩ (Except.ok ())).2.2 = BodyRead.discard := by
  have h := cancel_removes_pending_and_drains ⟨1, [0], false, false⟩ 0
    "context canceled" "Foo.Sum" "" (Except.ok ()) (by decide)
  exact ⟨by decide, h.1, h.2.1, h.2.2.1, h.2.2.2⟩

/-- C7: on a GET the registry evicts every entry whose heartbeat is at
least TTL old before producing the result (so every surviving entry is
strictly fresher than the TTL), sets X-Geerpc-Servers to the
comma-joined addresses of the surviving entries, and an address all of
whose entries have outlived the TTL (no POST refreshed it) is absent
from the response. -/
theorem registry_get_evicts_and_joins (r : GeeRegistry) (now : Int) (a : String)
    (hstale : ∀ s ∈ r.servers, s.addr = a → r.timeout ≤ now - s.start) :
    (∀ s ∈ (registryServeHTTP r now RVerb.get).1.servers, now - s.start < r.timeout)
    ∧ (registryServeHTTP r now RVerb.get).2.serversHeader =
        some (String.intercalate ","
          (((registryServeHTTP r now RVerb.get).1.servers).map ServerItem.addr))
    ∧ a ∉ ((registryServeHTTP r now RVerb.get).1.servers).map ServerItem.addr := by
  refine ⟨?_, rfl, ?_⟩
  · intro s hs
    have := List.mem_filter.mp hs
    simpa using this.2
  · intro hmem
    obtain ⟨s, hs, hsa⟩ := List.mem_map.mp hmem
    have hf := List.mem_filter.mp hs
    have hfresh : now - s.start < r.timeout := by simpa using hf.2
    have hold := hstale s hf.1 hsa
    exact absurd hfresh (not_lt.mpr hold)

/-- C7 witness: registry with TTL 5 holding s1 (heartbeat at 0, stale
at time 5) and s2 (heartbeat at 3, alive): the GET response lists only
s2 and s1 is gone. -/
theorem registry_get_evicts_and_joins_witness :
    (registryServeHTTP ⟨5, [⟨"s1", 0⟩, ⟨"s2", 3⟩]⟩ 5 RVerb.get).2.serversHeader
        = some "s2"
    ∧ "s1" ∉ ((registryServeHTTP ⟨5, [⟨"s1", 0⟩, ⟨"s2", 3⟩]⟩ 5
        RVerb.get).1.servers).map ServerItem.addr := by
  have h := registry_get_evicts_and_joins ⟨5, [⟨"s1", 0⟩, ⟨"s2", 3⟩]⟩ 5 "s1"
    (by decide)
  exact ⟨by decide, h.2.2⟩

/-- C8: dialTimeout's two-phase connect timeout: with ConnectTimeout
zero the handshake result is awaited and returned unconditionally; with
a non-zero ConnectTimeout, a handshake outlasting it yields the error
"rpc client: connect timeout: expect within <d>" with the opened
connection closed, while a handshake finishing in time yields its own
result. -/
theorem dialTimeout_two_phase :
    (∀ (ht : Nat) (hres : Except String Nat),
        (dialTimeout 0 (Except.ok ()) ht hres).1 = hres)
    ∧ (∀ (d ht : Nat) (hres : Except String Nat), d ≠ 0 → d < ht →
        dialTimeout d (Except.ok ()) ht hres =
          (Except.error (connectTimeoutMsg d), true))
    ∧ (∀ (d ht : Nat) (hres : Except String Nat), d ≠ 0 → ht ≤ d →
        (dialTimeout d (Except.ok ()) ht hres).1 = hres) := by
  refine ⟨fun ht hres => rfl, ?_, ?_⟩
  · intro d ht hres hd hlt
    simp [dialTimeout, hd, hlt]
  · intro d ht hres hd hle
    simp [dialTimeout, hd, Nat.not_lt.mpr hle]

/-- C8 witness: no limit with ConnectTimeout 0; timeout error with
ConnectTimeout 1 against a 5-unit handshake; the handshake's own result
with ConnectTimeout 2 against a 1-unit handshake. -/
theorem dialTimeout_two_phase_witness :
    (dialTimeout 0 (Except.ok ()) 100 (Except.ok 7)).1 = Except.ok 7
    ∧ dialTimeout 1 (Except.ok ()) 5 (Except.ok 7)
        = (Except.error (connectTimeoutMsg 1), true)
    ∧ (dialTimeout 2 (Except.ok ()) 1 (Except.error "unknown codec foo")).1
        = Except.error "unknown codec foo" :=
  ⟨dialTimeout_two_phase.1 100 (Except.ok 7),
   dialTimeout_two_phase.2.1 1 5 (Except.ok 7) (by decide) (by decide),
   dialTimeout_two_phase.2.2 2 1 (Except.error "unknown codec foo")
     (by decide) (by decide)⟩

/-- C9: MultiServersDiscovery.Get answers "invalid server" exactly for
modes other than RandomSelect and RoundRobinSelect; on an empty server
list both known modes hit the unguarded rand.Intn/modulo and panic
instead of returning an error; on a non-empty list RoundRobinSelect
returns the element at (index+1) mod length and stores that index,
while RandomSelect returns the randomly drawn element and leaves the
stored index alone. -/
theorem discoveryGet_modes :
    (∀ (servers : List String) (index r mode : Nat),
        mode ≠ RandomSelect → mode ≠ RoundRobinSelect →
        discoveryGet servers index r mode = GetOutcome.err "invalid server")
    ∧ (∀ (index r mode : Nat), mode = RandomSelect ∨ mode = RoundRobinSelect →
        discoveryGet [] index r mode = GetOutcome.panics)
    ∧ (∀ (servers : List String) (index r : Nat), servers ≠ [] →
        discoveryGet servers index r RoundRobinSelect =
          GetOutcome.ok (servers.getD ((index + 1) % servers.length) "")
            ((index + 1) % servers.length))
    ∧ (∀ (servers : List String) (index r : Nat), servers ≠ [] →
        discoveryGet servers index r RandomSelect =
          GetOutcome.ok (servers.getD (r % servers.length) "") index) := by
  refine ⟨?_, ?_, ?_, ?_⟩
  · intro servers index r mode h0 h1
    simp [discoveryGet, RandomSelect, RoundRobinSelect] at h0 h1 ⊢
    simp [h0, h1]
  · intro index r mode hm
    cases hm with
    | inl h => subst h; simp [discoveryGet, RandomSelect, RoundRobinSelect]
    | inr h => subst h; simp [discoveryGet, RandomSelect, RoundRobinSelect]
  · intro servers index r hne
    have hlen : servers.length ≠ 0 := by
      simpa [List.length_eq_zero] using hne
    simp [discoveryGet, RandomSelect, RoundRobinSelect, hlen]
  · intro servers index r hne
    have hlen : servers.length ≠ 0 := by
      simpa [List.length_eq_zero] using hne
    simp [discoveryGet, RandomSelect, hlen]

/-- C9 witness: mode 2 errors with "invalid server"; round-robin and
random on the empty list panic; on ["a","b","c"] with stored index 0,
round-robin returns "b" and stores 1; random with draw 4 returns "b"
and keeps index 7. -/
theorem discoveryGet_modes_witness :
    discoveryGet ["a", "b", "c"] 0 0 2 = GetOutcome.err "invalid server"
    ∧ discoveryGet [] 0 0 1 = GetOutcome.panics
    ∧ discoveryGet [] 0 0 0 = GetOutcome.panics
    ∧ discoveryGet ["a", "b", "c"] 0 4 1 = GetOutcome.ok "b" 1
    ∧ discoveryGet ["a", "b", "c"] 7 4 0 = GetOutcome.ok "b" 7 := by
  refine ⟨discoveryGet_modes.1 ["a", "b", "c"] 0 0 2 (by decide) (by decide),
    discoveryGet_modes.2.1 0 0 1 (Or.inr rfl),
    discoveryGet_modes.2.1 0 0 0 (Or.inl rfl), ?_, ?_⟩
  · have h := discoveryGet_modes.2.2.1 ["a", "b", "c"] 0 4 (by decide)
    simpa using h
  · have h := discoveryGet_modes.2.2.2 ["a", "b", "c"] 7 4 (by decide)
    simpa using h

/-- C10: with a TTL of zero, every registered entry (whose heartbeat is
no later than the current read) satisfies now - start ≥ 0 = timeout and
is evicted, so a GET empties the server map and returns the empty alive
list: zero means "evict everything", not "no limit". -/
theorem registry_zero_timeout_evicts_all (r : GeeRegistry) (now : Int)
    (h0 : r.timeout = 0) (hreg : ∀ s ∈ r.servers, s.start ≤ now) :
    (aliveServers r now).1.servers = [] ∧ (aliveServers r now).2 = [] := by
  have hnil : r.servers.filter (fun s => now - s.start < r.timeout) = [] := by
    rw [List.filter_eq_nil_iff]
    intro s hs
    have := hreg s hs
    simp [h0]
    omega
  exact ⟨by simpa [aliveServers] using hnil, by simp [aliveServers, hnil]⟩

/-- C10 witness: a zero-TTL registry holding one entry whose heartbeat
equals the read time returns nothing and drops the entry. -/
theorem registry_zero_timeout_evicts_all_witness :
    (aliveServers ⟨0, [⟨"x", 3⟩]⟩ 3).1.servers = []
    ∧ (aliveServers ⟨0, [⟨"x", 3⟩]⟩ 3).2 = [] :=
  registry_zero_timeout_evicts_all ⟨0, [⟨"x", 3⟩]⟩ 3 (by decide) (by decide)

end GeeRPC
